import Mathlib

/-!
Verification development for the secboot repository.

The development embeds two subsystems:

* the versioned sealed-key data model (`KeyData_v1` / `KeyData_v2`,
  serialization with length-prefixed fields, the import transition and
  `ValidateData`), and
* the volume activation state machine
  (`ActivateVolumeWithTPMSealedKey` / `ActivateVolumeWithRecoveryKey`
  with bounded retries, the PIN/recovery candidate readers and the
  external unlock tool boundary),

together with the PCR policy value enumeration helper and the EFI secure
boot namespace authority rules, and proves the spec's claims about them.
-/

namespace Secboot

/-! ## Byte-level serialization primitives

The sealed key data model serializes records as sequences of fixed-width
big-endian integers and length-prefixed (sized) byte fields.  Bytes are
modelled as natural numbers below 256 in a `List`. -/

abbrev Bytes := List Nat

/-- The `w` big-endian base-256 digits of `n` (low `8*w` bits). -/
def beBytes : Nat → Nat → Bytes
  | 0, _ => []
  | w + 1, n => (n / 256 ^ w % 256) :: beBytes w n

/-- Accumulating reader for a fixed-width big-endian integer; `none` when
the buffer is too short. -/
def readBEAux : Nat → Nat → Bytes → Option (Nat × Bytes)
  | 0, acc, b => some (acc, b)
  | _ + 1, _, [] => none
  | w + 1, acc, x :: b => readBEAux w (acc * 256 + x) b

/-- A structured deserialization error: the path of nested field names from
the record root to the offending field, plus a message. -/
structure ReadError where
  path : List String
  msg : String
deriving Repr, DecidableEq

def oversizeMsg : String := "sized value has a size larger than the remaining bytes"

def shortMsg : String := "insufficient bytes"

/-- Read a `w`-byte big-endian integer, tagging failures with the field path. -/
def readBE (w : Nat) (path : List String) (b : Bytes) : Except ReadError (Nat × Bytes) :=
  match readBEAux w 0 b with
  | some r => .ok r
  | none => .error ⟨path, shortMsg⟩

/-- Serialize a sized (length-prefixed) byte field: 16-bit big-endian length
followed by the contents. -/
def putSized (v : Bytes) : Bytes := beBytes 2 v.length ++ v

/-- Read a sized byte field.  A declared size exceeding the remaining buffer
is a structured error naming the field path, never an over-read. -/
def getSized (path : List String) (b : Bytes) : Except ReadError (Bytes × Bytes) :=
  match readBE 2 path b with
  | .error e => .error e
  | .ok (n, rest) =>
      if n ≤ rest.length then .ok (rest.take n, rest.drop n)
      else .error ⟨path, oversizeMsg⟩

theorem readBEAux_beBytes (w : Nat) :
    ∀ (acc n : Nat) (rest : Bytes),
      readBEAux w acc (beBytes w n ++ rest) = some (acc * 256 ^ w + n % 256 ^ w, rest) := by
  induction w with
  | zero => intro acc n rest; simp [beBytes, readBEAux, Nat.mod_one]
  | succ w ih =>
      intro acc n rest
      have hmod : n % 256 ^ (w + 1) = 256 ^ w * (n / 256 ^ w % 256) + n % 256 ^ w := by
        have h1 : n % 256 ^ (w + 1) = n % (256 ^ w * 256) := by rw [pow_succ]
        rw [h1, Nat.mod_mul]
        ring
      simp only [beBytes, readBEAux, List.cons_append, List.append_eq]
      rw [ih]
      congr 1
      rw [hmod, pow_succ]
      ring

theorem readBE_beBytes {w n : Nat} (h : n < 256 ^ w) (path : List String) (rest : Bytes) :
    readBE w path (beBytes w n ++ rest) = .ok (n, rest) := by
  simp [readBE, readBEAux_beBytes, Nat.mod_eq_of_lt h]

theorem getSized_putSized {v : Bytes} (h : v.length < 256 ^ 2) (path : List String)
    (rest : Bytes) : getSized path (putSized v ++ rest) = .ok (v, rest) := by
  simp only [getSized, putSized, List.append_assoc, readBE_beBytes h]
  rw [if_pos (by simp), List.take_left, List.drop_left]

theorem readBEAux_suffix (w : Nat) :
    ∀ (acc : Nat) (b : Bytes) (r : Nat) (rest : Bytes),
      readBEAux w acc b = some (r, rest) → rest.IsSuffix b := by
  induction w with
  | zero =>
      intro acc b r rest h
      simp only [readBEAux, Option.some.injEq, Prod.mk.injEq] at h
      rw [← h.2]
  | succ w ih =>
      intro acc b r rest h
      match b with
      | [] => simp [readBEAux] at h
      | x :: b =>
          have := ih (acc * 256 + x) b r rest h
          exact this.trans (List.suffix_cons x b)

theorem readBE_suffix {w : Nat} {path : List String} {b : Bytes} {r : Nat} {rest : Bytes}
    (h : readBE w path b = .ok (r, rest)) : rest.IsSuffix b := by
  unfold readBE at h
  match hx : readBEAux w 0 b with
  | some v =>
      rw [hx] at h
      cases h
      exact readBEAux_suffix w 0 b r rest hx
  | none => rw [hx] at h; cases h

theorem readBE_error {w : Nat} {path : List String} {b : Bytes} {e : ReadError}
    (h : readBE w path b = .error e) : e = ⟨path, shortMsg⟩ := by
  unfold readBE at h
  match hx : readBEAux w 0 b with
  | some v => rw [hx] at h; cases h
  | none => rw [hx] at h; cases h; rfl

theorem getSized_suffix {path : List String} {b : Bytes} {v rest : Bytes}
    (h : getSized path b = .ok (v, rest)) : rest.IsSuffix b := by
  unfold getSized at h
  split at h
  · simp at h
  next n r heq =>
    split at h
    next hn =>
      cases h
      exact (List.drop_suffix n r).trans (readBE_suffix heq)
    next hn => simp at h

theorem getSized_error {path : List String} {b : Bytes} {e : ReadError}
    (h : getSized path b = .error e) :
    e.path = path ∧ (e.msg = oversizeMsg ∨ e.msg = shortMsg) := by
  unfold getSized at h
  split at h
  next e' heq =>
    cases h
    have := readBE_error heq
    subst this
    exact ⟨rfl, Or.inr rfl⟩
  next n r heq =>
    split at h
    next hn => simp at h
    next hn =>
      cases h
      exact ⟨rfl, Or.inl rfl⟩

/-! ## Sealed key data model (versions 1 and 2) -/

/-- Modelled from the spec: the authorization public key area stored inside
`StaticPolicyData` (spec §3 StaticPolicyData, §4.1); the production
`tpm2.Public` type is not under src/.  It carries fixed-width header fields
followed by the length-prefixed `AuthPolicy` digest and the remaining
type-specific parameters, also length-prefixed here. -/
structure TpmPublic where
  objectType : Nat
  nameAlg : Nat
  attrs : Nat
  authPolicy : Bytes
  pubParams : Bytes
deriving Repr, DecidableEq

def TpmPublic.serialize (p : TpmPublic) : Bytes :=
  beBytes 2 p.objectType ++ (beBytes 2 p.nameAlg ++ (beBytes 4 p.attrs ++
    (putSized p.authPolicy ++ putSized p.pubParams)))

def TpmPublic.wf (p : TpmPublic) : Prop :=
  p.objectType < 256 ^ 2 ∧ p.nameAlg < 256 ^ 2 ∧ p.attrs < 256 ^ 4 ∧
    p.authPolicy.length < 256 ^ 2 ∧ p.pubParams.length < 256 ^ 2

instance (p : TpmPublic) : Decidable p.wf := by unfold TpmPublic.wf; infer_instance

def parsePublic (path : List String) (b : Bytes) : Except ReadError (TpmPublic × Bytes) :=
  match readBE 2 (path ++ ["Type"]) b with
  | .error e => .error e
  | .ok (t, b) =>
    match readBE 2 (path ++ ["NameAlg"]) b with
    | .error e => .error e
    | .ok (na, b) =>
      match readBE 4 (path ++ ["Attrs"]) b with
      | .error e => .error e
      | .ok (ats, b) =>
        match getSized (path ++ ["AuthPolicy"]) b with
        | .error e => .error e
        | .ok (ap, b) =>
          match getSized (path ++ ["Params"]) b with
          | .error e => .error e
          | .ok (pp, b) => .ok (⟨t, na, ats, ap, pp⟩, b)

/-- Modelled from the spec: `StaticPolicyData` in its version-1 raw form binds
the authorization public key and the PCR policy counter handle (spec §3);
the production `staticPolicyDataRaw_v1` type is not under src/. -/
structure StaticPolicyDataRaw_v1 where
  AuthPublicKey : TpmPublic
  PCRPolicyCounterHandle : Nat
deriving Repr, DecidableEq

def StaticPolicyDataRaw_v1.serialize (s : StaticPolicyDataRaw_v1) : Bytes :=
  s.AuthPublicKey.serialize ++ beBytes 4 s.PCRPolicyCounterHandle

def StaticPolicyDataRaw_v1.wf (s : StaticPolicyDataRaw_v1) : Prop :=
  s.AuthPublicKey.wf ∧ s.PCRPolicyCounterHandle < 256 ^ 4

instance (s : StaticPolicyDataRaw_v1) : Decidable s.wf := by
  unfold StaticPolicyDataRaw_v1.wf; infer_instance

def parseStatic (path : List String) (b : Bytes) :
    Except ReadError (StaticPolicyDataRaw_v1 × Bytes) :=
  match parsePublic (path ++ ["AuthPublicKey"]) b with
  | .error e => .error e
  | .ok (pk, b) =>
    match readBE 4 (path ++ ["PCRPolicyCounterHandle"]) b with
    | .error e => .error e
    | .ok (h, b) => .ok (⟨pk, h⟩, b)

/-- Modelled from the spec: `DynamicPolicyData` in its version-0 raw form —
PCR selection, flattened policy-OR data, the revocation counter value at
computation time, and the authorized policy digest with its signature
(spec §3 DynamicPolicyData); the production `dynamicPolicyDataRaw_v0` type
is not under src/. -/
structure DynamicPolicyDataRaw_v0 where
  PCRSelection : Bytes
  PCROrData : Bytes
  PolicyCount : Nat
  AuthorizedPolicy : Bytes
  AuthorizedPolicySignature : Bytes
deriving Repr, DecidableEq

def DynamicPolicyDataRaw_v0.serialize (d : DynamicPolicyDataRaw_v0) : Bytes :=
  putSized d.PCRSelection ++ (putSized d.PCROrData ++ (beBytes 8 d.PolicyCount ++
    (putSized d.AuthorizedPolicy ++ putSized d.AuthorizedPolicySignature)))

def DynamicPolicyDataRaw_v0.wf (d : DynamicPolicyDataRaw_v0) : Prop :=
  d.PCRSelection.length < 256 ^ 2 ∧ d.PCROrData.length < 256 ^ 2 ∧
    d.PolicyCount < 256 ^ 8 ∧ d.AuthorizedPolicy.length < 256 ^ 2 ∧
    d.AuthorizedPolicySignature.length < 256 ^ 2

instance (d : DynamicPolicyDataRaw_v0) : Decidable d.wf := by
  unfold DynamicPolicyDataRaw_v0.wf; infer_instance

def parseDynamic (path : List String) (b : Bytes) :
    Except ReadError (DynamicPolicyDataRaw_v0 × Bytes) :=
  match getSized (path ++ ["PCRSelection"]) b with
  | .error e => .error e
  | .ok (sel, b) =>
    match getSized (path ++ ["PCROrData"]) b with
    | .error e => .error e
    | .ok (or_, b) =>
      match readBE 8 (path ++ ["PolicyCount"]) b with
      | .error e => .error e
      | .ok (cnt, b) =>
        match getSized (path ++ ["AuthorizedPolicy"]) b with
        | .error e => .error e
        | .ok (ap, b) =>
          match getSized (path ++ ["AuthorizedPolicySignature"]) b with
          | .error e => .error e
          | .ok (sig, b) => .ok (⟨sel, or_, cnt, ap, sig⟩, b)

/-- Modelled from the spec: the version-1 sealed key record — sealed object
private and public areas, static policy data and dynamic policy data, with
no import seed (spec §3 KeyData, §4.1); the production `keyData_v1` type is
not under src/. -/
structure KeyData_v1 where
  KeyPrivate : Bytes
  KeyPublic : TpmPublic
  StaticPolicyData : StaticPolicyDataRaw_v1
  DynamicPolicyData : DynamicPolicyDataRaw_v0
deriving Repr, DecidableEq

def KeyData_v1.serialize (k : KeyData_v1) : Bytes :=
  putSized k.KeyPrivate ++ (k.KeyPublic.serialize ++
    (k.StaticPolicyData.serialize ++ k.DynamicPolicyData.serialize))

/-- Modelled from the spec: the version-2 sealed key record, which adds the
optional import symmetric seed after the public area (spec §3 KeyData:
the seed is present only for importable variants; §4.1); the production
`keyData_v2` type is not under src/.  An empty seed models a nil
`tpm2.EncryptedSecret` (non-importable / already bound). -/
structure KeyData_v2 where
  KeyPrivate : Bytes
  KeyPublic : TpmPublic
  KeyImportSymSeed : Bytes
  StaticPolicyData : StaticPolicyDataRaw_v1
  DynamicPolicyData : DynamicPolicyDataRaw_v0
deriving Repr, DecidableEq

def KeyData_v2.serializeV2 (k : KeyData_v2) : Bytes :=
  putSized k.KeyPrivate ++ (k.KeyPublic.serialize ++ (putSized k.KeyImportSymSeed ++
    (k.StaticPolicyData.serialize ++ k.DynamicPolicyData.serialize)))

/-- The version-1 view of a version-2 record: identical fields, import seed
dropped (spec §3: version 2 with no import seed is structurally identical
to version 1). -/
def KeyData_v2.AsV1 (k : KeyData_v2) : KeyData_v1 :=
  ⟨k.KeyPrivate, k.KeyPublic, k.StaticPolicyData, k.DynamicPolicyData⟩

/-- Modelled from the spec: `Write` serializes a version-2 record; with
no import seed it downgrades losslessly to the version-1 layout for backward
compatibility (spec §4.1 round-trip law); the production
`keyData_v2.Write` is not under src/. -/
def KeyData_v2.Write (k : KeyData_v2) : Bytes :=
  if k.KeyImportSymSeed = [] then k.AsV1.serialize else k.serializeV2

def KeyData_v2.wf (k : KeyData_v2) : Prop :=
  k.KeyPrivate.length < 256 ^ 2 ∧ k.KeyPublic.wf ∧
    k.KeyImportSymSeed.length < 256 ^ 2 ∧ k.StaticPolicyData.wf ∧
    k.DynamicPolicyData.wf

instance (k : KeyData_v2) : Decidable k.wf := by unfold KeyData_v2.wf; infer_instance

/-- Version tag reported for a record: a version-2 object with no import
seed is reported (and serialized) as version 1. -/
def KeyData_v2.Version (k : KeyData_v2) : Nat :=
  if k.KeyImportSymSeed = [] then 1 else 2

def ReadKeyDataV1 (b : Bytes) : Except ReadError (KeyData_v1 × Bytes) :=
  match getSized ["KeyPrivate"] b with
  | .error e => .error e
  | .ok (priv, b) =>
    match parsePublic ["KeyPublic"] b with
    | .error e => .error e
    | .ok (pub, b) =>
      match parseStatic ["StaticPolicyData"] b with
      | .error e => .error e
      | .ok (st, b) =>
        match parseDynamic ["DynamicPolicyData"] b with
        | .error e => .error e
        | .ok (dy, b) => .ok (⟨priv, pub, st, dy⟩, b)

def ReadKeyDataV2 (b : Bytes) : Except ReadError (KeyData_v2 × Bytes) :=
  match getSized ["KeyPrivate"] b with
  | .error e => .error e
  | .ok (priv, b) =>
    match parsePublic ["KeyPublic"] b with
    | .error e => .error e
    | .ok (pub, b) =>
      match getSized ["KeyImportSymSeed"] b with
      | .error e => .error e
      | .ok (seed, b) =>
        match parseStatic ["StaticPolicyData"] b with
        | .error e => .error e
        | .ok (st, b) =>
          match parseDynamic ["DynamicPolicyData"] b with
          | .error e => .error e
          | .ok (dy, b) => .ok (⟨priv, pub, seed, st, dy⟩, b)

/-! ### Parser round-trip lemmas -/

theorem parsePublic_serialize {p : TpmPublic} (hp : p.wf) (path : List String)
    (rest : Bytes) : parsePublic path (p.serialize ++ rest) = .ok (p, rest) := by
  obtain ⟨h1, h2, h3, h4, h5⟩ := hp
  simp only [parsePublic, TpmPublic.serialize, List.append_assoc, readBE_beBytes h1,
    readBE_beBytes h2, readBE_beBytes h3, getSized_putSized h4, getSized_putSized h5]

theorem parseStatic_serialize {s : StaticPolicyDataRaw_v1} (hs : s.wf) (path : List String)
    (rest : Bytes) : parseStatic path (s.serialize ++ rest) = .ok (s, rest) := by
  obtain ⟨hpk, hh⟩ := hs
  simp only [parseStatic, StaticPolicyDataRaw_v1.serialize, List.append_assoc,
    parsePublic_serialize hpk, readBE_beBytes hh]

theorem parseDynamic_serialize {d : DynamicPolicyDataRaw_v0} (hd : d.wf) (path : List String)
    (rest : Bytes) : parseDynamic path (d.serialize ++ rest) = .ok (d, rest) := by
  obtain ⟨h1, h2, h3, h4, h5⟩ := hd
  simp only [parseDynamic, DynamicPolicyDataRaw_v0.serialize, List.append_assoc,
    getSized_putSized h1, getSized_putSized h2, readBE_beBytes h3, getSized_putSized h4,
    getSized_putSized h5]

theorem readKeyDataV1_serialize {k : KeyData_v1}
    (h1 : k.KeyPrivate.length < 256 ^ 2) (h2 : k.KeyPublic.wf)
    (h3 : k.StaticPolicyData.wf) (h4 : k.DynamicPolicyData.wf) (rest : Bytes) :
    ReadKeyDataV1 (k.serialize ++ rest) = .ok (k, rest) := by
  simp only [ReadKeyDataV1, KeyData_v1.serialize, List.append_assoc, getSized_putSized h1,
    parsePublic_serialize h2, parseStatic_serialize h3, parseDynamic_serialize h4]

theorem readKeyDataV2_serializeV2 {k : KeyData_v2} (hk : k.wf) (rest : Bytes) :
    ReadKeyDataV2 (k.serializeV2 ++ rest) = .ok (k, rest) := by
  obtain ⟨h1, h2, h3, h4, h5⟩ := hk
  simp only [ReadKeyDataV2, KeyData_v2.serializeV2, List.append_assoc, getSized_putSized h1,
    parsePublic_serialize h2, getSized_putSized h3, parseStatic_serialize h4,
    parseDynamic_serialize h5]

/-! ### Parser suffix and structured-error lemmas -/

/-- A deserialization error that names a nested field path strictly below
`path`, with one of the two structured messages. -/
def ParseErrWithin (path : List String) (e : ReadError) : Prop :=
  (∃ s, s ≠ [] ∧ e.path = path ++ s) ∧ (e.msg = oversizeMsg ∨ e.msg = shortMsg)

theorem readBE_errWithin {w : Nat} {path : List String} {f : String} {b : Bytes}
    {e : ReadError} (h : readBE w (path ++ [f]) b = .error e) : ParseErrWithin path e := by
  have := readBE_error h
  subst this
  exact ⟨⟨[f], by simp, rfl⟩, Or.inr rfl⟩

theorem getSized_errWithin {path : List String} {f : String} {b : Bytes}
    {e : ReadError} (h : getSized (path ++ [f]) b = .error e) : ParseErrWithin path e := by
  obtain ⟨hp, hm⟩ := getSized_error h
  exact ⟨⟨[f], by simp, hp⟩, hm⟩

theorem ParseErrWithin.mono {path : List String} {f : String} {e : ReadError}
    (h : ParseErrWithin (path ++ [f]) e) : ParseErrWithin path e := by
  obtain ⟨⟨s, hs, hp⟩, hm⟩ := h
  exact ⟨⟨f :: s, by simp, by rw [hp]; simp⟩, hm⟩

theorem parsePublic_suffix {path : List String} {b : Bytes} {p : TpmPublic} {rest : Bytes}
    (h : parsePublic path b = .ok (p, rest)) : rest.IsSuffix b := by
  unfold parsePublic at h
  split at h
  · simp at h
  next t b1 heq1 =>
    split at h
    · simp at h
    next na b2 heq2 =>
      split at h
      · simp at h
      next ats b3 heq3 =>
        split at h
        · simp at h
        next ap b4 heq4 =>
          split at h
          · simp at h
          next pp b5 heq5 =>
            cases h
            exact ((((getSized_suffix heq5).trans (getSized_suffix heq4)).trans
              (readBE_suffix heq3)).trans (readBE_suffix heq2)).trans (readBE_suffix heq1)

theorem parsePublic_error {path : List String} {b : Bytes} {e : ReadError}
    (h : parsePublic path b = .error e) : ParseErrWithin path e := by
  unfold parsePublic at h
  split at h
  next e1 heq1 => cases h; exact readBE_errWithin heq1
  next t b1 heq1 =>
    split at h
    next e2 heq2 => cases h; exact readBE_errWithin heq2
    next na b2 heq2 =>
      split at h
      next e3 heq3 => cases h; exact readBE_errWithin heq3
      next ats b3 heq3 =>
        split at h
        next e4 heq4 => cases h; exact getSized_errWithin heq4
        next ap b4 heq4 =>
          split at h
          next e5 heq5 => cases h; exact getSized_errWithin heq5
          next pp b5 heq5 => simp at h

theorem parseStatic_suffix {path : List String} {b : Bytes} {s : StaticPolicyDataRaw_v1}
    {rest : Bytes} (h : parseStatic path b = .ok (s, rest)) : rest.IsSuffix b := by
  unfold parseStatic at h
  split at h
  · simp at h
  next pk b1 heq1 =>
    split at h
    · simp at h
    next hh b2 heq2 =>
      cases h
      exact (readBE_suffix heq2).trans (parsePublic_suffix heq1)

theorem parseStatic_error {path : List String} {b : Bytes} {e : ReadError}
    (h : parseStatic path b = .error e) : ParseErrWithin path e := by
  unfold parseStatic at h
  split at h
  next e1 heq1 => cases h; exact (parsePublic_error heq1).mono
  next pk b1 heq1 =>
    split at h
    next e2 heq2 => cases h; exact readBE_errWithin heq2
    next hh b2 heq2 => simp at h

theorem parseDynamic_suffix {path : List String} {b : Bytes} {d : DynamicPolicyDataRaw_v0}
    {rest : Bytes} (h : parseDynamic path b = .ok (d, rest)) : rest.IsSuffix b := by
  unfold parseDynamic at h
  split at h
  · simp at h
  next sel b1 heq1 =>
    split at h
    · simp at h
    next or_ b2 heq2 =>
      split at h
      · simp at h
      next cnt b3 heq3 =>
        split at h
        · simp at h
        next ap b4 heq4 =>
          split at h
          · simp at h
          next sig b5 heq5 =>
            cases h
            exact ((((getSized_suffix heq5).trans (getSized_suffix heq4)).trans
              (readBE_suffix heq3)).trans (getSized_suffix heq2)).trans (getSized_suffix heq1)

theorem parseDynamic_error {path : List String} {b : Bytes} {e : ReadError}
    (h : parseDynamic path b = .error e) : ParseErrWithin path e := by
  unfold parseDynamic at h
  split at h
  next e1 heq1 => cases h; exact getSized_errWithin heq1
  next sel b1 heq1 =>
    split at h
    next e2 heq2 => cases h; exact getSized_errWithin heq2
    next or_ b2 heq2 =>
      split at h
      next e3 heq3 => cases h; exact readBE_errWithin heq3
      next cnt b3 heq3 =>
        split at h
        next e4 heq4 => cases h; exact getSized_errWithin heq4
        next ap b4 heq4 =>
          split at h
          next e5 heq5 => cases h; exact getSized_errWithin heq5
          next sig b5 heq5 => simp at h

theorem readKeyDataV2_suffix {b : Bytes} {k : KeyData_v2} {rest : Bytes}
    (h : ReadKeyDataV2 b = .ok (k, rest)) : rest.IsSuffix b := by
  unfold ReadKeyDataV2 at h
  split at h
  · simp at h
  next priv b1 heq1 =>
    split at h
    · simp at h
    next pub b2 heq2 =>
      split at h
      · simp at h
      next seed b3 heq3 =>
        split at h
        · simp at h
        next st b4 heq4 =>
          split at h
          · simp at h
          next dy b5 heq5 =>
            cases h
            exact ((((parseDynamic_suffix heq5).trans (parseStatic_suffix heq4)).trans
              (getSized_suffix heq3)).trans (parsePublic_suffix heq2)).trans
              (getSized_suffix heq1)

theorem readKeyDataV2_error {b : Bytes} {e : ReadError}
    (h : ReadKeyDataV2 b = .error e) :
    e.path ≠ [] ∧ (e.msg = oversizeMsg ∨ e.msg = shortMsg) := by
  unfold ReadKeyDataV2 at h
  have ofWithin : ParseErrWithin [] e → e.path ≠ [] ∧ (e.msg = oversizeMsg ∨ e.msg = shortMsg) := by
    rintro ⟨⟨s, hs, hp⟩, hm⟩
    refine ⟨?_, hm⟩
    rw [hp]
    simpa using hs
  have ofSingle : ∀ f : String, e.path = [f] → (e.msg = oversizeMsg ∨ e.msg = shortMsg) →
      e.path ≠ [] ∧ (e.msg = oversizeMsg ∨ e.msg = shortMsg) := by
    intro f hp hm
    exact ⟨by rw [hp]; simp, hm⟩
  split at h
  next e1 heq1 =>
    cases h
    obtain ⟨hp, hm⟩ := getSized_error heq1
    exact ofSingle _ hp hm
  next priv b1 heq1 =>
    split at h
    next e2 heq2 =>
      cases h
      exact ofWithin ((show ParseErrWithin ([] ++ ["KeyPublic"]) e from parsePublic_error heq2).mono)
    next pub b2 heq2 =>
      split at h
      next e3 heq3 =>
        cases h
        obtain ⟨hp, hm⟩ := getSized_error heq3
        exact ofSingle _ hp hm
      next seed b3 heq3 =>
        split at h
        next e4 heq4 =>
          cases h
          exact ofWithin
            ((show ParseErrWithin ([] ++ ["StaticPolicyData"]) e from parseStatic_error heq4).mono)
        next st b4 heq4 =>
          split at h
          next e5 heq5 =>
            cases h
            exact ofWithin
              ((show ParseErrWithin ([] ++ ["DynamicPolicyData"]) e from
                parseDynamic_error heq5).mono)
          next dy b5 heq5 => simp at h

/-! ## Import transition and validation -/

/-- The sealed object's private area of a record (opaque encrypted blob). -/
def KeyData_v2.Private (k : KeyData_v2) : Bytes := k.KeyPrivate

/-- The import symmetric seed; empty models nil (not importable). -/
def KeyData_v2.ImportSymSeed (k : KeyData_v2) : Bytes := k.KeyImportSymSeed

/-- Modelled from the spec: the one-time import transition — the seed is
consumed and discarded and the private area replaced by the freshly
received one (spec §3 KeyData lifecycle); the production
`keyData_v2.Imported` is not under src/.  Calling it on a non-importable
record panics in the production code; the panic is modelled as
`Except.error` with the panic message. -/
def KeyData_v2.Imported (k : KeyData_v2) (priv : Bytes) : Except String KeyData_v2 :=
  if k.KeyImportSymSeed = [] then .error "does not need to be imported"
  else .ok { k with KeyPrivate := priv, KeyImportSymSeed := [] }

/-- The record as observed after an `Imported` call: a panic aborts the
mutation, leaving the record unchanged. -/
def KeyData_v2.importedState (k : KeyData_v2) (priv : Bytes) : KeyData_v2 :=
  match k.Imported priv with
  | .ok k' => k'
  | .error _ => k

/-- Modelled from the spec: the hardware context consulted by `ValidateData`
— the name the hardware reports for an NV counter handle (none when the
index is absent) and the signature verifier for the dynamic policy
signature against an authorization public key (spec §4.5). -/
structure HwCtx where
  counterName : Nat → Option Bytes
  sigVerify : TpmPublic → Bytes → Bytes → Bool

/-- The null handle: no PCR policy counter is referenced. -/
def handleNull : Nat := 0x40000007

/-- Modelled from the spec: `ValidateData` checks internal consistency of a
bound record — the importable check first (validation requires the object
be bound), then counter availability and the dynamic policy signature —
without touching secret material (spec §4.5); the production
`keyData_v2.ValidateData` is not under src/. -/
def KeyData_v2.ValidateData (hw : HwCtx) (k : KeyData_v2) : Except String (Option Nat) :=
  if k.KeyImportSymSeed ≠ [] then .error "cannot validate importable key data"
  else
    match (if k.StaticPolicyData.PCRPolicyCounterHandle = handleNull then
        (Except.ok none : Except String (Option Nat))
      else
        match hw.counterName k.StaticPolicyData.PCRPolicyCounterHandle with
        | none => .error "pcr policy counter is unavailable"
        | some _ => .ok (some k.StaticPolicyData.PCRPolicyCounterHandle)) with
    | .error e => .error e
    | .ok c =>
        if hw.sigVerify k.StaticPolicyData.AuthPublicKey k.DynamicPolicyData.AuthorizedPolicy
            k.DynamicPolicyData.AuthorizedPolicySignature then .ok c
        else .error "cannot verify dynamic authorization policy signature"

/-! ## Sample records used by witnesses -/

/-- A concrete well-formed non-importable version-2 record. -/
def sampleNonImportable : KeyData_v2 :=
  { KeyPrivate := [1, 2]
    KeyPublic := ⟨35, 11, 0, [7], []⟩
    KeyImportSymSeed := []
    StaticPolicyData := ⟨⟨35, 11, 0, [7], []⟩, handleNull⟩
    DynamicPolicyData := ⟨[], [], 0, [9], [8]⟩ }

/-- A concrete well-formed importable version-2 record. -/
def sampleImportable : KeyData_v2 := { sampleNonImportable with KeyImportSymSeed := [5, 5] }

/-- The record obtained by importing `sampleImportable` with private area `[3]`. -/
def sampleImported : KeyData_v2 :=
  { sampleImportable with KeyPrivate := [3], KeyImportSymSeed := [] }

/-- A hardware context whose signature verifier accepts and that reports no
NV counters. -/
def sampleHw : HwCtx := ⟨fun _ => none, fun _ _ _ => true⟩

/-- A non-importable record whose authorization key carries an all-0xff
auth policy digest, so that its version-1 serialization misparses as
version 2 with a reproducible oversized length field (mirrors
`TestReadNonImportableAsV2Fails`). -/
def badKeyData : KeyData_v2 :=
  { KeyPrivate := []
    KeyPublic := ⟨0, 0, 0, [], []⟩
    KeyImportSymSeed := []
    StaticPolicyData := ⟨⟨35, 0, 0, List.replicate 32 255, []⟩, 0x0180ff00⟩
    DynamicPolicyData := ⟨[], [], 0, [], []⟩ }

/-! ## Claims about the sealed key data model -/

/-- Claim C1: for every valid version-2 record with no import seed, `Write`
followed by the version-1 reader succeeds and yields exactly the version-1
conversion of the original; for every importable version-2 record, `Write`
followed by the version-2 reader yields the original record. -/
theorem keydata_v2_write_read_roundtrip (k : KeyData_v2) (hk : k.wf) :
    (k.KeyImportSymSeed = [] → ReadKeyDataV1 k.Write = .ok (k.AsV1, [])) ∧
    (k.KeyImportSymSeed ≠ [] → ReadKeyDataV2 k.Write = .ok (k, [])) := by
  obtain ⟨h1, h2, h3, h4, h5⟩ := hk
  constructor
  · intro h
    rw [KeyData_v2.Write, if_pos h]
    have := @readKeyDataV1_serialize k.AsV1 h1 h2 h4 h5 []
    simpa using this
  · intro h
    rw [KeyData_v2.Write, if_neg h]
    have := @readKeyDataV2_serializeV2 k ⟨h1, h2, h3, h4, h5⟩ []
    simpa using this

theorem keydata_v2_write_read_roundtrip_witness :
    ReadKeyDataV1 sampleNonImportable.Write = .ok (sampleNonImportable.AsV1, []) ∧
    ReadKeyDataV2 sampleImportable.Write = .ok (sampleImportable, []) :=
  ⟨(keydata_v2_write_read_roundtrip sampleNonImportable (by decide)).1 (by decide),
   (keydata_v2_write_read_roundtrip sampleImportable (by decide)).2 (by decide)⟩

/-- Claim C4: the version-2 reader never reads past the end of the buffer
(the unconsumed tail of a successful parse is a literal suffix of the
input, and the reader is a total function, so it cannot panic); every
failure is a structured error naming a non-empty nested field path; and on
a version-1 serialization whose misaligned auth policy length field
declares a size larger than the remaining bytes, the reader fails naming
the `AuthPolicy` field inside `StaticPolicyData`'s `AuthPublicKey`. -/
theorem keydata_read_malformed_structured_error :
    (∀ (b : Bytes) (k : KeyData_v2) (rest : Bytes),
       ReadKeyDataV2 b = .ok (k, rest) → rest.IsSuffix b) ∧
    (∀ (b : Bytes) (e : ReadError), ReadKeyDataV2 b = .error e →
       e.path ≠ [] ∧ (e.msg = oversizeMsg ∨ e.msg = shortMsg)) ∧
    ReadKeyDataV2 badKeyData.Write =
      .error ⟨["StaticPolicyData", "AuthPublicKey", "AuthPolicy"], oversizeMsg⟩ := by
  refine ⟨fun b k rest h => readKeyDataV2_suffix h,
    fun b e h => readKeyDataV2_error h, ?_⟩
  rfl

theorem keydata_read_malformed_structured_error_witness :
    ([] : Bytes).IsSuffix sampleImportable.serializeV2 ∧
    (ReadError.mk ["KeyPrivate"] shortMsg).path ≠ [] :=
  ⟨keydata_read_malformed_structured_error.1 sampleImportable.serializeV2 sampleImportable []
      (by rfl),
   (keydata_read_malformed_structured_error.2.1 [] ⟨["KeyPrivate"], shortMsg⟩ (by rfl)).1⟩

/-- Claim C9: calling `Imported` on a non-importable record (import seed
absent, `ImportSymSeed` empty) panics with "does not need to be imported"
(modelled as an `Except.error` carrying the panic message) and leaves the
sealed private area unchanged. -/
theorem imported_on_non_importable_panics (k : KeyData_v2) (p : Bytes)
    (h : k.ImportSymSeed = []) :
    k.Imported p = .error "does not need to be imported" ∧
    (k.importedState p).Private = k.Private := by
  have h' : k.KeyImportSymSeed = [] := h
  constructor
  · rw [KeyData_v2.Imported, if_pos h']
  · rw [KeyData_v2.importedState, KeyData_v2.Imported, if_pos h']

theorem imported_on_non_importable_panics_witness :
    sampleNonImportable.Imported [4] = .error "does not need to be imported" ∧
    (sampleNonImportable.importedState [4]).Private = sampleNonImportable.Private := by
  exact imported_on_non_importable_panics sampleNonImportable [4] (by decide)

/-- Claim C6: `ValidateData` on an importable record whose import seed is
still present fails with "cannot validate importable key data"; it never
reads the sealed private area (secret material); and after the one-time
seed-consuming transition, `ValidateData` on the resulting bound
record succeeds whenever its bound-consistency checks (signature
verification, counter availability) hold. -/
theorem validate_importable_fails_until_imported (hw : HwCtx) (k : KeyData_v2)
    (h : k.KeyImportSymSeed ≠ []) :
    KeyData_v2.ValidateData hw k = .error "cannot validate importable key data" ∧
    (∀ (k' : KeyData_v2) (p : Bytes),
       KeyData_v2.ValidateData hw { k' with KeyPrivate := p } =
         KeyData_v2.ValidateData hw k') ∧
    (∀ (k' : KeyData_v2) (priv : Bytes), k.Imported priv = .ok k' →
       k'.StaticPolicyData.PCRPolicyCounterHandle = handleNull →
       hw.sigVerify k'.StaticPolicyData.AuthPublicKey k'.DynamicPolicyData.AuthorizedPolicy
           k'.DynamicPolicyData.AuthorizedPolicySignature = true →
       KeyData_v2.ValidateData hw k' = .ok none) := by
  refine ⟨?_, fun k' p => rfl, ?_⟩
  · rw [KeyData_v2.ValidateData, if_pos h]
  · intro k' priv himp hnull hsig
    rw [KeyData_v2.Imported, if_neg h] at himp
    cases himp
    dsimp only at hnull hsig
    simp [KeyData_v2.ValidateData, hnull, hsig]

theorem validate_importable_fails_until_imported_witness :
    KeyData_v2.ValidateData sampleHw sampleImportable =
      .error "cannot validate importable key data" ∧
    KeyData_v2.ValidateData sampleHw { sampleImportable with KeyPrivate := [9] } =
      KeyData_v2.ValidateData sampleHw sampleImportable ∧
    KeyData_v2.ValidateData sampleHw sampleImported = .ok none :=
  ⟨(validate_importable_fails_until_imported sampleHw sampleImportable (by decide)).1,
   (validate_importable_fails_until_imported sampleHw sampleImportable (by decide)).2.1
     sampleImportable [9],
   (validate_importable_fails_until_imported sampleHw sampleImportable (by decide)).2.2
     sampleImported [3] (by rfl) (by decide) rfl⟩

/-! ## Volume activation state machine

Modelled from the spec (§4.6 volume activation, §6 external interfaces, §7
error taxonomy): the production activation code (`crypt.go`) is not under
src/; only its test suite is.  Interactive prompting is modelled as a
queue of answers, the optional PIN/recovery-key reader as an optional
string (empty/unreadable content modelled as the empty string or absence),
and the external unlock tool as a function from candidate secret bytes to
an exit status, with each invocation logged. -/

/-- Why a recovery key was needed; attached to any cached recovery key. -/
inductive RecoveryKeyUsageReason where
  | requested
  | tpmLockout
  | tpmProvisioningError
  | invalidKeyFile
  | pinFail
deriving Repr, DecidableEq

/-- One invocation of the external unlock tool: the action, target volume
and source device, the candidate secret bytes handed over in a temporary
key file, and the comma-joined option string. -/
structure Invocation where
  action : String
  volumeName : String
  sourceDevicePath : String
  keyFileBytes : Bytes
  options : String
deriving Repr, DecidableEq

def sdCryptsetupName : String := "systemd-cryptsetup"

/-- The option string handed to the unlock tool: the caller's pass-through
options followed by exactly one synthesized attempt count. -/
def mkActivateOptions (activateOptions : List String) : String :=
  String.intercalate "," (activateOptions ++ ["tries=1"])

/-- Whether the caller's pass-through options collide with the reserved
attempt-count option. -/
def hasReservedOption (activateOptions : List String) : Bool :=
  activateOptions.any (fun o => "tries=".toList.isPrefixOf o.toList)

def pinPromptMsg (sourceDevicePath : String) : String :=
  "Please enter the PIN for disk " ++ sourceDevicePath ++ ":"

def recoveryPromptMsg (sourceDevicePath : String) : String :=
  "Please enter the recovery key for disk " ++ sourceDevicePath ++ ":"

/-- A supplied reader whose content is empty is treated as absent: it is
consumed without counting as a try (spec §4.6 retry accounting rule). -/
def normalizeReader : Option String → Option String
  | some s => if s = "" then none else some s
  | none => none

/-- Obtain one candidate: first from the (already normalized) reader,
consuming it; thereafter by issuing one interactive prompt.  Returns the
candidate, the remaining reader, the remaining answer queue and the
prompts issued.  An exhausted answer queue yields the empty answer. -/
def getCandidate (promptMsg : String) (reader : Option String) (answers : List String) :
    String × Option String × List String × List String :=
  match reader with
  | some s => (s, none, answers, [])
  | none =>
      match answers with
      | [] => ("", none, [], [promptMsg])
      | a :: rest => (a, none, rest, [promptMsg])

/-- Decode one group of five base-10 digits of a recovery key, skipping one
optional trailing hyphen. -/
def decodeGroup (cs : List Char) : Except String (Nat × List Char) :=
  match cs with
  | c1 :: c2 :: c3 :: c4 :: c5 :: rest =>
      if (c1.isDigit && c2.isDigit && c3.isDigit && c4.isDigit && c5.isDigit) then
        let v := ((((c1.toNat - 48) * 10 + (c2.toNat - 48)) * 10 + (c3.toNat - 48)) * 10 +
          (c4.toNat - 48)) * 10 + (c5.toNat - 48)
        if v < 65536 then
          .ok (v, if rest.head? = some '-' then rest.tail else rest)
        else .error "incorrectly formatted (invalid base-10 number)"
      else .error "incorrectly formatted (invalid base-10 number)"
  | _ => .error "incorrectly formatted (insufficient characters)"

def decodeGroups : Nat → List Char → Except String (Bytes × List Char)
  | 0, cs => .ok ([], cs)
  | n + 1, cs =>
      match decodeGroup cs with
      | .error e => .error e
      | .ok (v, cs) =>
          match decodeGroups n cs with
          | .error e => .error e
          | .ok (bs, cs) => .ok ([v % 256, v / 256] ++ bs, cs)

/-- Modelled from the spec: decode a recovery key as a fixed-length
numeric-group secret — eight groups of five base-10 digits, hyphens
optional, exact digit count required, each group a 16-bit value stored
little-endian (spec §4.6 step 2, §8); the production `decodeRecoveryKey`
is not under src/. -/
def decodeRecoveryKey (s : String) : Except String Bytes :=
  match decodeGroups 8 s.toList with
  | .error e => .error e
  | .ok (bs, rest) =>
      if rest = [] then .ok bs
      else .error "incorrectly formatted (too many characters)"

/-- Modelled from the spec: the bounded recovery-key attempt loop (spec
§4.6 WithRecoveryKey steps 2–4).  Each iteration obtains a candidate
(reader first, then prompt), decodes it (a decode failure consumes the try
and records the decode error), and on a successful decode invokes the
unlock tool once; a non-zero tool exit consumes the try and records the
tool error; success ends the loop.  Exhaustion returns the last-observed
error.  Returns the result (the accepted key on success), the prompts
issued and the tool invocations. -/
def activateWithRecoveryKeyLoop (volumeName sourceDevicePath optStr : String)
    (tool : Bytes → Bool) :
    Option String → List String → Nat → String →
      Except String Bytes × List String × List Invocation
  | _, _, 0, lastErr => (.error lastErr, [], [])
  | reader, answers, n + 1, lastErr =>
      let (cand, reader', answers', ps) :=
        getCandidate (recoveryPromptMsg sourceDevicePath) reader answers
      match decodeRecoveryKey cand with
      | .error e =>
          let (res, ps2, invs) := activateWithRecoveryKeyLoop volumeName sourceDevicePath
            optStr tool reader' answers' n ("cannot decode recovery key: " ++ e)
          (res, ps ++ ps2, invs)
      | .ok key =>
          let inv : Invocation := ⟨"attach", volumeName, sourceDevicePath, key, optStr⟩
          if tool key then (.ok key, ps, [inv])
          else
            let (res, ps2, invs) := activateWithRecoveryKeyLoop volumeName sourceDevicePath
              optStr tool reader' answers' n
              ("cannot activate volume: " ++ sdCryptsetupName ++ " failed: exit status 1")
            (res, ps ++ ps2, inv :: invs)

/-- Modelled from the spec: the shared recovery-key activation routine —
zero tries are rejected as "no recovery key tries permitted" before any
prompting or tool invocation (spec §4.6 WithRecoveryKey step 1). -/
def activateWithRecoveryKey (volumeName sourceDevicePath : String) (tool : Bytes → Bool)
    (reader : Option String) (answers : List String) (tries : Nat)
    (activateOptions : List String) : Except String Bytes × List String × List Invocation :=
  if tries = 0 then (.error "no recovery key tries permitted", [], [])
  else activateWithRecoveryKeyLoop volumeName sourceDevicePath
    (mkActivateOptions activateOptions) tool (normalizeReader reader) answers tries ""

/-- The result of one unseal attempt against the hardware (spec §4.5):
success with the secret, an authorization-value (PIN) mismatch, or a
classified hardware/policy failure with its message and the matching
recovery-key usage reason. -/
inductive UnsealResult where
  | ok (key : Bytes)
  | pinIncorrect
  | err (msg : String) (reason : RecoveryKeyUsageReason)

/-- The hardware as seen by the activation state machine: whether the
sealed key requires a PIN, and the outcome of unsealing with a given
authorization value. -/
structure TPMModel where
  pinSet : Bool
  unsealKey : String → UnsealResult

/-- Modelled from the spec: the bounded PIN attempt loop (spec §4.6
WithSealedKey step 2).  A wrong PIN consumes the try and continues; any
other unseal failure aborts with its classified cause.  Returns the
result, the prompts issued and the remaining answer queue. -/
def unsealLoop (tpm : TPMModel) (sourceDevicePath : String) :
    Option String → List String → Nat → String × RecoveryKeyUsageReason →
      Except (String × RecoveryKeyUsageReason) Bytes × List String × List String
  | _, answers, 0, lastErr => (.error lastErr, [], answers)
  | reader, answers, n + 1, lastErr =>
      let (cand, reader', answers', ps) :=
        getCandidate (pinPromptMsg sourceDevicePath) reader answers
      match tpm.unsealKey cand with
      | .ok key => (.ok key, ps, answers')
      | .pinIncorrect =>
          let (res, ps2, answers'') := unsealLoop tpm sourceDevicePath reader' answers' n
            ("cannot unseal key: the provided PIN is incorrect", .pinFail)
          (res, ps ++ ps2, answers'')
      | .err m r => (.error ("cannot unseal key: " ++ m, r), ps, answers')

/-- Modelled from the spec: the unseal phase of `WithSealedKey` — no PIN
required means a single unseal with the empty authorization value; a PIN
required with no PIN tries permitted fails closed (spec §4.6 step 2). -/
def unsealPhase (tpm : TPMModel) (sourceDevicePath : String) (reader : Option String)
    (answers : List String) (pinTries : Nat) :
    Except (String × RecoveryKeyUsageReason) Bytes × List String × List String :=
  if tpm.pinSet then
    if pinTries = 0 then
      (.error ("no PIN tries permitted when a PIN is required", .pinFail), [], answers)
    else unsealLoop tpm sourceDevicePath (normalizeReader reader) answers pinTries
      ("cannot unseal key: the provided PIN is incorrect", .pinFail)
  else
    match tpm.unsealKey "" with
    | .ok key => (.ok key, [], answers)
    | .pinIncorrect =>
        (.error ("cannot unseal key: the provided PIN is incorrect", .pinFail), [], answers)
    | .err m r => (.error ("cannot unseal key: " ++ m, r), [], answers)

/-- The observable outcome of an activation call: overall success, the
reported error, the interactive prompts issued, the external unlock tool
invocations, and any cached recovery key with its usage-reason tag. -/
structure ActivationResult where
  success : Bool
  err : Option String
  prompts : List String
  toolCalls : List Invocation
  cachedRecoveryKey : Option (Bytes × RecoveryKeyUsageReason)
deriving Repr, DecidableEq

/-- Options accepted by `ActivateVolumeWithRecoveryKey`. -/
structure ActivateWithRecoveryKeyOptions where
  Tries : Int
  ActivateOptions : List String

/-- Options accepted by `ActivateVolumeWithTPMSealedKey`. -/
structure ActivateWithTPMSealedKeyOptions where
  PINTries : Int
  RecoveryKeyTries : Int
  ActivateOptions : List String

/-- Modelled from the spec: the recovery-key entry point (spec §4.6
WithRecoveryKey) — validate the try count and the reserved option, then
run the bounded attempt loop; a successful activation caches the key
tagged with the explicit-request reason. -/
def ActivateVolumeWithRecoveryKey (volumeName sourceDevicePath : String)
    (keyReader : Option String) (options : ActivateWithRecoveryKeyOptions)
    (tool : Bytes → Bool) (answers : List String) : ActivationResult :=
  if options.Tries < 0 then ⟨false, some "invalid Tries", [], [], none⟩
  else if hasReservedOption options.ActivateOptions then
    ⟨false, some "cannot specify the \"tries=\" option for systemd-cryptsetup", [], [], none⟩
  else
    match activateWithRecoveryKey volumeName sourceDevicePath tool keyReader answers
        options.Tries.toNat options.ActivateOptions with
    | (.ok key, ps, invs) => ⟨true, none, ps, invs, some (key, .requested)⟩
    | (.error e, ps, invs) => ⟨false, some e, ps, invs, none⟩

/-- Modelled from the spec: fall back to the recovery key after a TPM-path
failure and report an error naming both the TPM failure cause and the
recovery outcome (spec §4.6 WithSealedKey step 4). -/
def fallbackToRecoveryKey (volumeName sourceDevicePath : String) (tool : Bytes → Bool)
    (answers : List String) (recoveryKeyTries : Nat) (activateOptions : List String)
    (tpmErrMsg : String) (reason : RecoveryKeyUsageReason) (prompts0 : List String)
    (invs0 : List Invocation) : ActivationResult :=
  match activateWithRecoveryKey volumeName sourceDevicePath tool none answers
      recoveryKeyTries activateOptions with
  | (.ok key, ps2, invs2) =>
      ⟨true,
        some ("cannot activate with TPM sealed key (" ++ tpmErrMsg ++
          ") but activation with recovery key was successful"),
        prompts0 ++ ps2, invs0 ++ invs2, some (key, reason)⟩
  | (.error rmsg, ps2, invs2) =>
      ⟨false,
        some ("cannot activate with TPM sealed key (" ++ tpmErrMsg ++
          ") and activation with recovery key failed (" ++ rmsg ++ ")"),
        prompts0 ++ ps2, invs0 ++ invs2, none⟩

/-- Modelled from the spec: the sealed-key entry point (spec §4.6
WithSealedKey) — validate the options, run the unseal phase, invoke the
unlock tool once with the recovered secret on success, and fall back to
the recovery key on any TPM-path failure. -/
def ActivateVolumeWithTPMSealedKey (tpm : TPMModel) (volumeName sourceDevicePath : String)
    (pinReader : Option String) (options : ActivateWithTPMSealedKeyOptions)
    (tool : Bytes → Bool) (answers : List String) : ActivationResult :=
  if options.PINTries < 0 then ⟨false, some "invalid PINTries", [], [], none⟩
  else if options.RecoveryKeyTries < 0 then ⟨false, some "invalid RecoveryKeyTries", [], [], none⟩
  else if hasReservedOption options.ActivateOptions then
    ⟨false, some "cannot specify the \"tries=\" option for systemd-cryptsetup", [], [], none⟩
  else
    match unsealPhase tpm sourceDevicePath pinReader answers options.PINTries.toNat with
    | (.ok key, ps1, answers1) =>
        let inv : Invocation :=
          ⟨"attach", volumeName, sourceDevicePath, key, mkActivateOptions options.ActivateOptions⟩
        if tool key then ⟨true, none, ps1, [inv], none⟩
        else fallbackToRecoveryKey volumeName sourceDevicePath tool answers1
          options.RecoveryKeyTries.toNat options.ActivateOptions
          ("cannot activate volume: " ++ sdCryptsetupName ++ " failed: exit status 1")
          .invalidKeyFile ps1 [inv]
    | (.error (m, r), ps1, answers1) =>
        fallbackToRecoveryKey volumeName sourceDevicePath tool answers1
          options.RecoveryKeyTries.toNat options.ActivateOptions m r ps1 []

/-! ## Claims about the activation state machine -/

def reservedOptionMsg : String := "cannot specify the \"tries=\" option for systemd-cryptsetup"

/-- Claim C5: a negative PIN-try count or a negative recovery-try count
(for `WithSealedKey`), a negative or zero try count (for
`WithRecoveryKey`, zero rejected as "no recovery key tries permitted"), or
a pass-through option list already containing the reserved "tries="
option, makes the entry point return a parameter error immediately — no
prompts are issued and no unlock-tool invocation occurs. -/
theorem activation_parameter_errors_are_immediate
    (tpm : TPMModel) (vol src : String) (reader : Option String)
    (tool : Bytes → Bool) (answers : List String) :
    (∀ opts : ActivateWithTPMSealedKeyOptions, opts.PINTries < 0 →
       ActivateVolumeWithTPMSealedKey tpm vol src reader opts tool answers =
         ⟨false, some "invalid PINTries", [], [], none⟩) ∧
    (∀ opts : ActivateWithTPMSealedKeyOptions, 0 ≤ opts.PINTries →
       opts.RecoveryKeyTries < 0 →
       ActivateVolumeWithTPMSealedKey tpm vol src reader opts tool answers =
         ⟨false, some "invalid RecoveryKeyTries", [], [], none⟩) ∧
    (∀ opts : ActivateWithTPMSealedKeyOptions, 0 ≤ opts.PINTries →
       0 ≤ opts.RecoveryKeyTries → hasReservedOption opts.ActivateOptions = true →
       ActivateVolumeWithTPMSealedKey tpm vol src reader opts tool answers =
         ⟨false, some reservedOptionMsg, [], [], none⟩) ∧
    (∀ opts : ActivateWithRecoveryKeyOptions, opts.Tries < 0 →
       ActivateVolumeWithRecoveryKey vol src reader opts tool answers =
         ⟨false, some "invalid Tries", [], [], none⟩) ∧
    (∀ opts : ActivateWithRecoveryKeyOptions, 0 ≤ opts.Tries →
       hasReservedOption opts.ActivateOptions = true →
       ActivateVolumeWithRecoveryKey vol src reader opts tool answers =
         ⟨false, some reservedOptionMsg, [], [], none⟩) ∧
    (∀ opts : ActivateWithRecoveryKeyOptions, opts.Tries = 0 →
       hasReservedOption opts.ActivateOptions = false →
       ActivateVolumeWithRecoveryKey vol src reader opts tool answers =
         ⟨false, some "no recovery key tries permitted", [], [], none⟩) := by
  refine ⟨?_, ?_, ?_, ?_, ?_, ?_⟩
  · intro opts h
    rw [ActivateVolumeWithTPMSealedKey, if_pos h]
  · intro opts h1 h2
    rw [ActivateVolumeWithTPMSealedKey, if_neg (by omega), if_pos h2]
  · intro opts h1 h2 h3
    rw [ActivateVolumeWithTPMSealedKey, if_neg (by omega), if_neg (by omega), if_pos h3]
    rfl
  · intro opts h
    rw [ActivateVolumeWithRecoveryKey, if_pos h]
  · intro opts h1 h2
    rw [ActivateVolumeWithRecoveryKey, if_neg (by omega), if_pos h2]
    rfl
  · intro opts h1 h2
    have h0 : opts.Tries.toNat = 0 := by omega
    rw [ActivateVolumeWithRecoveryKey, if_neg (by omega),
      if_neg (by rw [h2]; exact Bool.false_ne_true)]
    rw [activateWithRecoveryKey, h0, if_pos rfl]

theorem activation_parameter_errors_are_immediate_witness :
    ActivateVolumeWithTPMSealedKey ⟨false, fun _ => .pinIncorrect⟩ "data" "/dev/sda1" none
        ⟨-1, 0, []⟩ (fun _ => false) [] =
      ⟨false, some "invalid PINTries", [], [], none⟩ ∧
    ActivateVolumeWithRecoveryKey "data" "/dev/sda1" none ⟨0, []⟩ (fun _ => false) [] =
      ⟨false, some "no recovery key tries permitted", [], [], none⟩ :=
  ⟨(activation_parameter_errors_are_immediate ⟨false, fun _ => .pinIncorrect⟩ "data"
      "/dev/sda1" none (fun _ => false) []).1 ⟨-1, 0, []⟩ (by decide),
   (activation_parameter_errors_are_immediate ⟨false, fun _ => .pinIncorrect⟩ "data"
      "/dev/sda1" none (fun _ => false) []).2.2.2.2.2 ⟨0, []⟩ rfl (by decide)⟩

theorem fallback_err_shape (vol src : String) (tool : Bytes → Bool) (answers : List String)
    (rt : Nat) (ao : List String) (m : String) (reason : RecoveryKeyUsageReason)
    (ps0 : List String) (invs0 : List Invocation) :
    ((fallbackToRecoveryKey vol src tool answers rt ao m reason ps0 invs0).err =
       some ("cannot activate with TPM sealed key (" ++ m ++
         ") but activation with recovery key was successful") ∧
     (fallbackToRecoveryKey vol src tool answers rt ao m reason ps0 invs0).success = true) ∨
    (∃ rmsg, (fallbackToRecoveryKey vol src tool answers rt ao m reason ps0 invs0).err =
       some ("cannot activate with TPM sealed key (" ++ m ++
         ") and activation with recovery key failed (" ++ rmsg ++ ")") ∧
     (fallbackToRecoveryKey vol src tool answers rt ao m reason ps0 invs0).success = false) := by
  rcases hA : activateWithRecoveryKey vol src tool none answers rt ao with ⟨res, ps2, invs2⟩
  cases res with
  | ok key => left; simp [fallbackToRecoveryKey, hA]
  | error rmsg => right; exact ⟨rmsg, by simp [fallbackToRecoveryKey, hA]⟩

/-- Claim C2: under valid options, whenever `ActivateVolumeWithTPMSealedKey`
reports an error, that error names both the TPM failure cause and the
recovery outcome; in particular with the hardware in lockout mode and
`RecoveryKeyTries = 0` the call fails with the combined lockout /
"no recovery key tries permitted" error, with zero prompts and zero
unlock-tool invocations. -/
theorem sealed_key_fallback_error_reporting (tpm : TPMModel) (vol src : String)
    (reader : Option String) (opts : ActivateWithTPMSealedKeyOptions)
    (tool : Bytes → Bool) (answers : List String)
    (hp : 0 ≤ opts.PINTries) (hr : 0 ≤ opts.RecoveryKeyTries)
    (hres : hasReservedOption opts.ActivateOptions = false) :
    (∀ e, (ActivateVolumeWithTPMSealedKey tpm vol src reader opts tool answers).err = some e →
       ∃ cause,
         (e = "cannot activate with TPM sealed key (" ++ cause ++
            ") but activation with recovery key was successful" ∧
          (ActivateVolumeWithTPMSealedKey tpm vol src reader opts tool answers).success = true) ∨
         (∃ rmsg, e = "cannot activate with TPM sealed key (" ++ cause ++
            ") and activation with recovery key failed (" ++ rmsg ++ ")" ∧
          (ActivateVolumeWithTPMSealedKey tpm vol src reader opts tool answers).success =
            false)) ∧
    (tpm.pinSet = false →
     (∀ pin, tpm.unsealKey pin = .err "the TPM is in DA lockout mode" .tpmLockout) →
     opts.RecoveryKeyTries = 0 →
     ActivateVolumeWithTPMSealedKey tpm vol src reader opts tool answers =
       ⟨false, some ("cannot activate with TPM sealed key (cannot unseal key: the TPM is " ++
         "in DA lockout mode) and activation with recovery key failed (no recovery key " ++
         "tries permitted)"), [], [], none⟩) := by
  constructor
  · intro e he
    rw [ActivateVolumeWithTPMSealedKey, if_neg (by omega), if_neg (by omega),
      if_neg (by rw [hres]; exact Bool.false_ne_true)] at he ⊢
    rcases hU : unsealPhase tpm src reader answers opts.PINTries.toNat with ⟨ur, ps1, ans1⟩
    rw [hU] at he
    cases ur with
    | ok key =>
        dsimp only at he ⊢
        by_cases ht : tool key
        · simp only [ht, if_true] at he
          simp at he
        · simp only [ht, Bool.false_eq_true, if_false] at he ⊢
          refine ⟨"cannot activate volume: " ++ sdCryptsetupName ++ " failed: exit status 1", ?_⟩
          rcases fallback_err_shape vol src tool ans1 opts.RecoveryKeyTries.toNat
              opts.ActivateOptions
              ("cannot activate volume: " ++ sdCryptsetupName ++ " failed: exit status 1")
              .invalidKeyFile ps1
              [⟨"attach", vol, src, key, mkActivateOptions opts.ActivateOptions⟩] with
            h | ⟨rmsg, h⟩
          · left
            rw [he] at h
            exact ⟨by injection h.1, h.2⟩
          · right
            refine ⟨rmsg, ?_, h.2⟩
            rw [he] at h
            injection h.1
    | error mr =>
        rcases mr with ⟨m, r⟩
        dsimp only at he ⊢
        refine ⟨m, ?_⟩
        rcases fallback_err_shape vol src tool ans1 opts.RecoveryKeyTries.toNat
            opts.ActivateOptions m r ps1 [] with h | ⟨rmsg, h⟩
        · left
          rw [he] at h
          exact ⟨by injection h.1, h.2⟩
        · right
          refine ⟨rmsg, ?_, h.2⟩
          rw [he] at h
          injection h.1
  · intro hpin hlock hrt
    have h0 : opts.RecoveryKeyTries.toNat = 0 := by omega
    rw [ActivateVolumeWithTPMSealedKey, if_neg (by omega), if_neg (by omega),
      if_neg (by rw [hres]; exact Bool.false_ne_true)]
    rw [unsealPhase, if_neg (by rw [hpin]; exact Bool.false_ne_true), hlock]
    dsimp only
    unfold fallbackToRecoveryKey
    rw [activateWithRecoveryKey, h0, if_pos rfl]
    rfl

theorem sealed_key_fallback_error_reporting_witness :
    ActivateVolumeWithTPMSealedKey
        ⟨false, fun _ => .err "the TPM is in DA lockout mode" .tpmLockout⟩
        "data" "/dev/sda1" none ⟨0, 0, []⟩ (fun _ => false) [] =
      ⟨false, some ("cannot activate with TPM sealed key (cannot unseal key: the TPM is " ++
        "in DA lockout mode) and activation with recovery key failed (no recovery key " ++
        "tries permitted)"), [], [], none⟩ :=
  (sealed_key_fallback_error_reporting
    ⟨false, fun _ => .err "the TPM is in DA lockout mode" .tpmLockout⟩
    "data" "/dev/sda1" none ⟨0, 0, []⟩ (fun _ => false) []
    (by decide) (by decide) (by decide)).2 rfl (fun _ => rfl) rfl

theorem normalizeReader_empty : normalizeReader (some "") = normalizeReader none := by
  simp [normalizeReader]

theorem recoveryLoop_one_prompt_per_try (vol src optStr : String) (tool : Bytes → Bool)
    (good : String) (gk : Bytes) (hg : decodeRecoveryKey good = .ok gk)
    (hgt : tool gk = true) :
    ∀ (wrongs : List String) (lastErr : String),
      (∀ w ∈ wrongs, ∃ k, decodeRecoveryKey w = .ok k ∧ tool k = false) →
      ∃ invs, activateWithRecoveryKeyLoop vol src optStr tool none (wrongs ++ [good])
          (wrongs.length + 1) lastErr =
        (.ok gk, List.replicate (wrongs.length + 1) (recoveryPromptMsg src), invs) := by
  intro wrongs
  induction wrongs with
  | nil =>
      intro lastErr _
      refine ⟨[⟨"attach", vol, src, gk, optStr⟩], ?_⟩
      simp [activateWithRecoveryKeyLoop, getCandidate, hg, hgt]
  | cons w ws ih =>
      intro lastErr h
      obtain ⟨k, hk, hkt⟩ := h w (List.mem_cons_self w ws)
      obtain ⟨invs, hI⟩ :=
        ih ("cannot activate volume: " ++ sdCryptsetupName ++ " failed: exit status 1")
          (fun w' hw' => h w' (List.mem_cons_of_mem w hw'))
      refine ⟨⟨"attach", vol, src, k, optStr⟩ :: invs, ?_⟩
      rw [activateWithRecoveryKeyLoop.eq_def]
      simp only [List.cons_append, List.length_cons, getCandidate, hk, hkt,
        Bool.false_eq_true, if_false, hI, List.replicate_succ]
      simp

theorem unsealLoop_one_prompt_per_try (tpm : TPMModel) (src : String) (good : String)
    (key : Bytes) (hg : tpm.unsealKey good = .ok key) :
    ∀ (wrongs : List String) (lastErr : String × RecoveryKeyUsageReason),
      (∀ w ∈ wrongs, tpm.unsealKey w = .pinIncorrect) →
      unsealLoop tpm src none (wrongs ++ [good]) (wrongs.length + 1) lastErr =
        (.ok key, List.replicate (wrongs.length + 1) (pinPromptMsg src), []) := by
  intro wrongs
  induction wrongs with
  | nil =>
      intro lastErr _
      simp [unsealLoop, getCandidate, hg]
  | cons w ws ih =>
      intro lastErr h
      have hw := h w (List.mem_cons_self w ws)
      have hI := ih ("cannot unseal key: the provided PIN is incorrect", .pinFail)
        (fun w' hw' => h w' (List.mem_cons_of_mem w hw'))
      rw [unsealLoop.eq_def]
      simp only [List.cons_append, List.length_cons, getCandidate, hw, hI,
        List.replicate_succ]
      simp

/-- Claim C3: for both entry points, a try is consumed only when a candidate
is actually evaluated: a supplied reader with empty content behaves exactly
like an absent reader (so it consumes no try), and with an empty reader
followed by `N` interactive answers whose last one is accepted, a budget of
exactly `N` tries suffices — `N` prompts are issued and the activation
succeeds, never requiring `N + 1` tries. -/
theorem try_consumed_only_on_evaluation :
    (∀ (tpm : TPMModel) (vol src : String) (opts : ActivateWithTPMSealedKeyOptions)
       (tool : Bytes → Bool) (answers : List String),
       ActivateVolumeWithTPMSealedKey tpm vol src (some "") opts tool answers =
         ActivateVolumeWithTPMSealedKey tpm vol src none opts tool answers) ∧
    (∀ (vol src : String) (opts : ActivateWithRecoveryKeyOptions) (tool : Bytes → Bool)
       (answers : List String),
       ActivateVolumeWithRecoveryKey vol src (some "") opts tool answers =
         ActivateVolumeWithRecoveryKey vol src none opts tool answers) ∧
    (∀ (vol src : String) (tool : Bytes → Bool) (wrongs : List String) (good : String)
       (gk : Bytes), decodeRecoveryKey good = .ok gk → tool gk = true →
       (∀ w ∈ wrongs, ∃ k, decodeRecoveryKey w = .ok k ∧ tool k = false) →
       (ActivateVolumeWithRecoveryKey vol src (some "")
           ⟨(wrongs.length + 1 : Nat), []⟩ tool (wrongs ++ [good])).success = true ∧
       (ActivateVolumeWithRecoveryKey vol src (some "")
           ⟨(wrongs.length + 1 : Nat), []⟩ tool (wrongs ++ [good])).prompts =
         List.replicate (wrongs.length + 1) (recoveryPromptMsg src)) ∧
    (∀ (tpm : TPMModel) (vol src : String) (rt : Nat) (tool : Bytes → Bool)
       (wrongs : List String) (good : String) (key : Bytes),
       tpm.pinSet = true → tpm.unsealKey good = .ok key → tool key = true →
       (∀ w ∈ wrongs, tpm.unsealKey w = .pinIncorrect) →
       (ActivateVolumeWithTPMSealedKey tpm vol src (some "")
           ⟨(wrongs.length + 1 : Nat), (rt : Nat), []⟩ tool (wrongs ++ [good])).success =
         true ∧
       (ActivateVolumeWithTPMSealedKey tpm vol src (some "")
           ⟨(wrongs.length + 1 : Nat), (rt : Nat), []⟩ tool (wrongs ++ [good])).prompts =
         List.replicate (wrongs.length + 1) (pinPromptMsg src) ∧
       (ActivateVolumeWithTPMSealedKey tpm vol src (some "")
           ⟨(wrongs.length + 1 : Nat), (rt : Nat), []⟩ tool
           (wrongs ++ [good])).toolCalls.length = 1) := by
  refine ⟨?_, ?_, ?_, ?_⟩
  · intro tpm vol src opts tool answers
    unfold ActivateVolumeWithTPMSealedKey unsealPhase
    rw [normalizeReader_empty]
  · intro vol src opts tool answers
    unfold ActivateVolumeWithRecoveryKey activateWithRecoveryKey
    rw [normalizeReader_empty]
  · intro vol src tool wrongs good gk hg hgt hw
    obtain ⟨invs, hI⟩ := recoveryLoop_one_prompt_per_try vol src
      (mkActivateOptions []) tool good gk hg hgt wrongs "" hw
    have hn : ((wrongs.length + 1 : Nat) : Int).toNat = wrongs.length + 1 := by omega
    rw [ActivateVolumeWithRecoveryKey]
    dsimp only
    rw [if_neg (by omega), if_neg (by simp [hasReservedOption])]
    rw [activateWithRecoveryKey, hn, if_neg (by omega)]
    rw [show normalizeReader (some "") = none from by simp [normalizeReader]]
    rw [hI]
    exact ⟨rfl, rfl⟩
  · intro tpm vol src rt tool wrongs good key hpin hg ht hw
    have hn : ((wrongs.length + 1 : Nat) : Int).toNat = wrongs.length + 1 := by omega
    have hrt : ((rt : Nat) : Int).toNat = rt := by omega
    have hL := unsealLoop_one_prompt_per_try tpm src good key hg wrongs
      ("cannot unseal key: the provided PIN is incorrect", .pinFail) hw
    rw [ActivateVolumeWithTPMSealedKey]
    dsimp only
    rw [if_neg (by omega), if_neg (by omega), if_neg (by simp [hasReservedOption])]
    rw [unsealPhase, if_pos hpin, hn, if_neg (by omega)]
    rw [show normalizeReader (some "") = none from by simp [normalizeReader]]
    rw [hL]
    dsimp only
    rw [if_pos ht]
    exact ⟨rfl, rfl, rfl⟩

def goodRecoveryString : String := "00000-00000-00000-00000-00000-00000-00000-00000"

theorem try_consumed_only_on_evaluation_witness :
    (ActivateVolumeWithRecoveryKey "data" "/dev/sda1" (some "") ⟨1, []⟩ (fun _ => true)
        [goodRecoveryString]).success = true ∧
    (ActivateVolumeWithRecoveryKey "data" "/dev/sda1" (some "") ⟨1, []⟩ (fun _ => true)
        [goodRecoveryString]).prompts =
      List.replicate 1 (recoveryPromptMsg "/dev/sda1") ∧
    (ActivateVolumeWithTPMSealedKey ⟨true, fun pin => if pin = "1234" then .ok [1] else
        .pinIncorrect⟩ "data" "/dev/sda1" (some "") ⟨1, 0, []⟩ (fun _ => true)
        ["1234"]).toolCalls.length = 1 := by
  have h3 := try_consumed_only_on_evaluation.2.2.1 "data" "/dev/sda1" (fun _ => true) []
    goodRecoveryString (List.replicate 16 0) (by rfl) rfl (by simp)
  have h4 := (try_consumed_only_on_evaluation.2.2.2 ⟨true, fun pin =>
    if pin = "1234" then .ok [1] else .pinIncorrect⟩ "data" "/dev/sda1" 0 (fun _ => true)
    [] "1234" [1] rfl (by rfl) rfl (by simp)).2.2
  exact ⟨h3.1, h3.2, h4⟩

theorem recoveryLoop_invocation_args (vol src optStr : String) (tool : Bytes → Bool) :
    ∀ (n : Nat) (reader : Option String) (answers : List String) (lastErr : String)
      (inv : Invocation),
      inv ∈ (activateWithRecoveryKeyLoop vol src optStr tool reader answers n lastErr).2.2 →
      inv.action = "attach" ∧ inv.volumeName = vol ∧ inv.sourceDevicePath = src ∧
        inv.options = optStr := by
  intro n
  induction n with
  | zero => intro reader answers lastErr inv h; simp [activateWithRecoveryKeyLoop] at h
  | succ n ih =>
      intro reader answers lastErr inv h
      rw [activateWithRecoveryKeyLoop.eq_2] at h
      rcases hgc : getCandidate (recoveryPromptMsg src) reader answers with
        ⟨cand, reader', answers', ps⟩
      rw [hgc] at h
      dsimp only at h
      rcases hd : decodeRecoveryKey cand with e | key
      · rw [hd] at h
        dsimp only at h
        exact ih reader' answers' ("cannot decode recovery key: " ++ e) inv h
      · rw [hd] at h
        dsimp only at h
        by_cases ht : tool key
        · rw [if_pos ht] at h
          dsimp only at h
          simp only [List.mem_singleton] at h
          subst h
          exact ⟨rfl, rfl, rfl, rfl⟩
        · rw [if_neg ht] at h
          dsimp only at h
          simp only [List.mem_cons] at h
          rcases h with h | h
          · subst h; exact ⟨rfl, rfl, rfl, rfl⟩
          · exact ih reader' answers'
              ("cannot activate volume: " ++ sdCryptsetupName ++ " failed: exit status 1") inv h

theorem activateWithRecoveryKey_invocation_args (vol src : String) (tool : Bytes → Bool)
    (reader : Option String) (answers : List String) (tries : Nat) (ao : List String)
    (inv : Invocation)
    (h : inv ∈ (activateWithRecoveryKey vol src tool reader answers tries ao).2.2) :
    inv.action = "attach" ∧ inv.volumeName = vol ∧ inv.sourceDevicePath = src ∧
      inv.options = mkActivateOptions ao := by
  rw [activateWithRecoveryKey] at h
  by_cases h0 : tries = 0
  · rw [if_pos h0] at h; simp at h
  · rw [if_neg h0] at h
    exact recoveryLoop_invocation_args vol src (mkActivateOptions ao) tool tries
      (normalizeReader reader) answers "" inv h

/-- Claim C7: every unlock-tool invocation made by either entry point
carries action "attach", the volume name, the source device path, and a
comma-joined option string equal to the caller's pass-through options
followed by exactly one synthesized "tries=1"; and on a successful
candidate evaluation the tool is invoked exactly once per attempt with
exactly the candidate secret bytes. -/
theorem unlock_tool_invocation_args :
    (∀ (vol src : String) (reader : Option String) (opts : ActivateWithRecoveryKeyOptions)
       (tool : Bytes → Bool) (answers : List String) (inv : Invocation),
       inv ∈ (ActivateVolumeWithRecoveryKey vol src reader opts tool answers).toolCalls →
       inv.action = "attach" ∧ inv.volumeName = vol ∧ inv.sourceDevicePath = src ∧
         inv.options = mkActivateOptions opts.ActivateOptions) ∧
    (∀ (tpm : TPMModel) (vol src : String) (reader : Option String)
       (opts : ActivateWithTPMSealedKeyOptions) (tool : Bytes → Bool)
       (answers : List String) (inv : Invocation),
       inv ∈ (ActivateVolumeWithTPMSealedKey tpm vol src reader opts tool answers).toolCalls →
       inv.action = "attach" ∧ inv.volumeName = vol ∧ inv.sourceDevicePath = src ∧
         inv.options = mkActivateOptions opts.ActivateOptions) ∧
    (∀ (tpm : TPMModel) (vol src : String) (reader : Option String)
       (opts : ActivateWithTPMSealedKeyOptions) (tool : Bytes → Bool)
       (answers : List String) (key : Bytes),
       0 ≤ opts.PINTries → 0 ≤ opts.RecoveryKeyTries →
       hasReservedOption opts.ActivateOptions = false →
       tpm.pinSet = false → tpm.unsealKey "" = .ok key → tool key = true →
       (ActivateVolumeWithTPMSealedKey tpm vol src reader opts tool answers).toolCalls =
         [⟨"attach", vol, src, key, mkActivateOptions opts.ActivateOptions⟩]) ∧
    (∀ (vol src : String) (cand : String) (k : Bytes) (tool : Bytes → Bool)
       (answers : List String) (ao : List String),
       hasReservedOption ao = false → cand ≠ "" → decodeRecoveryKey cand = .ok k →
       tool k = true →
       (ActivateVolumeWithRecoveryKey vol src (some cand) ⟨1, ao⟩ tool answers).toolCalls =
         [⟨"attach", vol, src, k, mkActivateOptions ao⟩]) := by
  refine ⟨?_, ?_, ?_, ?_⟩
  · intro vol src reader opts tool answers inv h
    rw [ActivateVolumeWithRecoveryKey] at h
    by_cases h1 : opts.Tries < 0
    · rw [if_pos h1] at h; simp at h
    · rw [if_neg h1] at h
      by_cases h2 : hasReservedOption opts.ActivateOptions
      · rw [if_pos h2] at h; simp at h
      · rw [if_neg h2] at h
        rcases hA : activateWithRecoveryKey vol src tool reader answers opts.Tries.toNat
            opts.ActivateOptions with ⟨res, ps, invs⟩
        rw [hA] at h
        have hmem : inv ∈ invs := by
          cases res with
          | ok key => simpa using h
          | error e => simpa using h
        have := activateWithRecoveryKey_invocation_args vol src tool reader answers
          opts.Tries.toNat opts.ActivateOptions inv (by rw [hA]; exact hmem)
        exact this
  · intro tpm vol src reader opts tool answers inv h
    rw [ActivateVolumeWithTPMSealedKey] at h
    by_cases h1 : opts.PINTries < 0
    · rw [if_pos h1] at h; simp at h
    · rw [if_neg h1] at h
      by_cases h2 : opts.RecoveryKeyTries < 0
      · rw [if_pos h2] at h; simp at h
      · rw [if_neg h2] at h
        by_cases h3 : hasReservedOption opts.ActivateOptions
        · rw [if_pos h3] at h; simp at h
        · rw [if_neg h3] at h
          rcases hU : unsealPhase tpm src reader answers opts.PINTries.toNat with
            ⟨ur, ps1, ans1⟩
          rw [hU] at h
          have fall : ∀ (m : String) (r : RecoveryKeyUsageReason) (invs0 : List Invocation),
              (∀ i ∈ invs0, i.action = "attach" ∧ i.volumeName = vol ∧
                i.sourceDevicePath = src ∧ i.options = mkActivateOptions opts.ActivateOptions) →
              inv ∈ (fallbackToRecoveryKey vol src tool ans1 opts.RecoveryKeyTries.toNat
                opts.ActivateOptions m r ps1 invs0).toolCalls →
              inv.action = "attach" ∧ inv.volumeName = vol ∧ inv.sourceDevicePath = src ∧
                inv.options = mkActivateOptions opts.ActivateOptions := by
            intro m r invs0 h0 hmem
            rw [fallbackToRecoveryKey] at hmem
            rcases hA : activateWithRecoveryKey vol src tool none ans1
                opts.RecoveryKeyTries.toNat opts.ActivateOptions with ⟨res, ps2, invs2⟩
            rw [hA] at hmem
            have : inv ∈ invs0 ++ invs2 := by
              cases res with
              | ok key => simpa using hmem
              | error e => simpa using hmem
            rcases List.mem_append.mp this with hm | hm
            · exact h0 inv hm
            · exact activateWithRecoveryKey_invocation_args vol src tool none ans1
                opts.RecoveryKeyTries.toNat opts.ActivateOptions inv (by rw [hA]; exact hm)
          cases ur with
          | ok key =>
              dsimp only at h
              by_cases ht : tool key
              · rw [if_pos ht] at h
                simp only [List.mem_singleton] at h
                subst h
                exact ⟨rfl, rfl, rfl, rfl⟩
              · rw [if_neg ht] at h
                exact fall _ _ _
                  (by intro i hi; simp only [List.mem_singleton] at hi; subst hi
                      exact ⟨rfl, rfl, rfl, rfl⟩) h
          | error mr =>
              rcases mr with ⟨m, r⟩
              dsimp only at h
              exact fall m r [] (by intro i hi; simp at hi) h
  · intro tpm vol src reader opts tool answers key hp hr hres hpin hun ht
    rw [ActivateVolumeWithTPMSealedKey, if_neg (by omega), if_neg (by omega),
      if_neg (by rw [hres]; exact Bool.false_ne_true)]
    rw [unsealPhase, if_neg (by rw [hpin]; exact Bool.false_ne_true), hun]
    dsimp only
    rw [if_pos ht]
  · intro vol src cand k tool answers ao hres hcand hd ht
    rw [ActivateVolumeWithRecoveryKey]
    dsimp only
    rw [if_neg (by omega), if_neg (by rw [hres]; exact Bool.false_ne_true)]
    rw [activateWithRecoveryKey, show ((1 : Int)).toNat = 1 from rfl, if_neg (by omega)]
    rw [show normalizeReader (some cand) = some cand from by
      simp [normalizeReader, hcand]]
    rw [activateWithRecoveryKeyLoop.eq_def]
    dsimp only [getCandidate]
    rw [hd]
    dsimp only
    rw [if_pos ht]

theorem unlock_tool_invocation_args_witness :
    (ActivateVolumeWithTPMSealedKey ⟨false, fun _ => .ok [7]⟩ "data" "/dev/sda1" none
        ⟨0, 0, ["foo=bar", "baz"]⟩ (fun _ => true) []).toolCalls =
      [⟨"attach", "data", "/dev/sda1", [7], "foo=bar,baz,tries=1"⟩] ∧
    (ActivateVolumeWithRecoveryKey "data" "/dev/sda1" (some goodRecoveryString) ⟨1, []⟩
        (fun _ => true) []).toolCalls =
      [⟨"attach", "data", "/dev/sda1", List.replicate 16 0, "tries=1"⟩] := by
  constructor
  · have := unlock_tool_invocation_args.2.2.1 ⟨false, fun _ => .ok [7]⟩ "data" "/dev/sda1"
      none ⟨0, 0, ["foo=bar", "baz"]⟩ (fun _ => true) [] [7] (by decide) (by decide)
      (by decide) rfl rfl rfl
    rw [this]
    rfl
  · have := unlock_tool_invocation_args.2.2.2 "data" "/dev/sda1" goodRecoveryString
      (List.replicate 16 0) (fun _ => true) [] [] rfl (by decide) (by rfl) rfl
    rw [this]
    rfl

/-! ## PCR policy value enumeration (from src/tpm2/export_test.go) -/

/-- One PCR parameter: a PCR index, a digest algorithm, and the list of
acceptable digests (mirrors `MockPolicyPCRParam`). -/
structure MockPolicyPCRParam where
  PCR : Nat
  Alg : Nat
  Digests : List Bytes
deriving Repr, DecidableEq

/-- A PCR value assignment, mirroring `tpm2.PCRValues` (a map from
algorithm and PCR index to a digest), as an association list updated in
insertion order. -/
abbrev PCRValues := List (Nat × Nat × Bytes)

/-- `tpm2.PCRValues.SetValue`: set the digest for one (algorithm, PCR)
slot, replacing any existing entry. -/
def setPCRValue (v : PCRValues) (alg pcr : Nat) (digest : Bytes) : PCRValues :=
  match v with
  | [] => [(alg, pcr, digest)]
  | (a, p, d) :: rest =>
      if a = alg ∧ p = pcr then (alg, pcr, digest) :: rest
      else (a, p, d) :: setPCRValue rest alg pcr digest

/-- The `advanceIndices` closure of `MakeMockPolicyPCRValuesFull`: increment
the odometer of per-parameter digest indices, resetting and carrying; `none`
when the last index wraps (the Go closure returns `false`). -/
def advanceIndices : List Nat → List MockPolicyPCRParam → Option (List Nat)
  | i :: is, p :: ps =>
      if i + 1 < p.Digests.length then some ((i + 1) :: is)
      else
        match ps with
        | [] => none
        | _ :: _ => (advanceIndices is ps).map (fun is' => 0 :: is')
  | _, _ => none

/-- One row of the enumeration: the PCR values selected by the current
indices (the inner `for i := range params` loop building `v`). -/
def buildPCRRow (params : List MockPolicyPCRParam) (indices : List Nat) : PCRValues :=
  (params.zip indices).foldl
    (fun v pi => setPCRValue v pi.1.Alg pi.1.PCR (pi.1.Digests.getD pi.2 [])) []

/-- The main loop of `MakeMockPolicyPCRValuesFull`, with explicit fuel (the
Go loop terminates because the odometer eventually wraps; the fuel is an
upper bound on the number of rows). -/
def mockPCRValuesLoop (params : List MockPolicyPCRParam) :
    Nat → List Nat → List PCRValues → List PCRValues
  | 0, _, out => out.reverse
  | fuel + 1, indices, out =>
      let v := buildPCRRow params indices
      let out := v :: out
      if params.length = 0 then out.reverse
      else
        match advanceIndices indices params with
        | none => out.reverse
        | some indices' => mockPCRValuesLoop params fuel indices' out

/-- `MakeMockPolicyPCRValuesFull` computes a slice of PCR value assignments
for every combination of supplied PCR values (from src/tpm2/export_test.go). -/
def MakeMockPolicyPCRValuesFull (params : List MockPolicyPCRParam) : List PCRValues :=
  mockPCRValuesLoop params
    (params.foldl (fun acc p => acc * p.Digests.length) 1 + 1)
    (List.replicate params.length 0) []

/-- Claim C8: over an empty parameter list the policy-value combination
product is exactly one row — the empty PCR-values assignment — and not
zero rows. -/
theorem mock_pcr_values_empty_params_one_row :
    MakeMockPolicyPCRValuesFull [] = [([] : PCRValues)] ∧
    (MakeMockPolicyPCRValuesFull []).length = 1 := by
  constructor <;> rfl

/-! ## EFI secure boot namespace authority rules
(from src/efi/secureboot_namespace_rules.go) -/

/-- The identity of a secure boot authority (`secureBootAuthorityIdentity`). -/
structure SecureBootAuthorityIdentity where
  subject : Bytes
  subjectKeyId : Bytes
  publicKeyAlgorithm : Nat
deriving Repr, DecidableEq

/-- The fields of an `x509.Certificate` consulted by `AddAuthorities`. -/
structure Certificate where
  RawSubject : Bytes
  SubjectKeyId : Bytes
  PublicKeyAlgorithm : Nat
deriving Repr, DecidableEq

/-- The equality test in the inner loop of `AddAuthorities`: raw subject,
subject key id and public key algorithm all equal. -/
def authorityMatchesCert (a : SecureBootAuthorityIdentity) (c : Certificate) : Bool :=
  a.subject == c.RawSubject && a.subjectKeyId == c.SubjectKeyId &&
    a.publicKeyAlgorithm == c.PublicKeyAlgorithm

/-- The body of `AddAuthorities` for one certificate: scan the registered
authorities and append only when no existing identity matches. -/
def addOneAuthority (auths : List SecureBootAuthorityIdentity) (cert : Certificate) :
    List SecureBootAuthorityIdentity :=
  if auths.any (fun a => authorityMatchesCert a cert) then auths
  else auths ++ [⟨cert.RawSubject, cert.SubjectKeyId, cert.PublicKeyAlgorithm⟩]

/-- `secureBootNamespaceRules.AddAuthorities`: fold `addOneAuthority` over
the supplied certificates in order. -/
def AddAuthorities (auths : List SecureBootAuthorityIdentity) (certs : List Certificate) :
    List SecureBootAuthorityIdentity :=
  certs.foldl addOneAuthority auths

theorem mem_addOneAuthority {a : SecureBootAuthorityIdentity}
    {auths : List SecureBootAuthorityIdentity} (c : Certificate) (h : a ∈ auths) :
    a ∈ addOneAuthority auths c := by
  rw [addOneAuthority]
  split
  · exact h
  · exact List.mem_append_left _ h

theorem addOneAuthority_matched {auths : List SecureBootAuthorityIdentity}
    {c : Certificate} (h : ∃ a ∈ auths, authorityMatchesCert a c = true) :
    addOneAuthority auths c = auths := by
  rw [addOneAuthority, if_pos]
  rw [List.any_eq_true]
  obtain ⟨a, ha, hm⟩ := h
  exact ⟨a, ha, hm⟩

theorem matched_mem_addOneAuthority (auths : List SecureBootAuthorityIdentity)
    (c : Certificate) : ∃ a ∈ addOneAuthority auths c, authorityMatchesCert a c = true := by
  rw [addOneAuthority]
  split
  next h =>
    obtain ⟨a, ha, hm⟩ := List.any_eq_true.mp h
    exact ⟨a, ha, hm⟩
  next h =>
    refine ⟨⟨c.RawSubject, c.SubjectKeyId, c.PublicKeyAlgorithm⟩, List.mem_append_right _ ?_, ?_⟩
    · exact List.mem_singleton.mpr rfl
    · simp [authorityMatchesCert]

theorem mem_AddAuthorities {a : SecureBootAuthorityIdentity}
    (certs : List Certificate) :
    ∀ {auths : List SecureBootAuthorityIdentity}, a ∈ auths → a ∈ AddAuthorities auths certs := by
  induction certs with
  | nil => intro auths h; exact h
  | cons c cs ih =>
      intro auths h
      exact ih (mem_addOneAuthority c h)

theorem AddAuthorities_covers (certs : List Certificate) :
    ∀ (auths : List SecureBootAuthorityIdentity), ∀ c ∈ certs,
      ∃ a ∈ AddAuthorities auths certs, authorityMatchesCert a c = true := by
  induction certs with
  | nil => intro auths c hc; simp at hc
  | cons c' cs ih =>
      intro auths c hc
      rcases List.mem_cons.mp hc with hc | hc
      · subst hc
        obtain ⟨a, ha, hm⟩ := matched_mem_addOneAuthority auths c
        exact ⟨a, mem_AddAuthorities cs ha, hm⟩
      · exact ih (addOneAuthority auths c') c hc

theorem AddAuthorities_of_covered (certs : List Certificate) :
    ∀ (auths : List SecureBootAuthorityIdentity),
      (∀ c ∈ certs, ∃ a ∈ auths, authorityMatchesCert a c = true) →
      AddAuthorities auths certs = auths := by
  induction certs with
  | nil => intro auths _; rfl
  | cons c cs ih =>
      intro auths h
      have h1 : addOneAuthority auths c = auths :=
        addOneAuthority_matched (h c (List.mem_cons_self c cs))
      have h2 : AddAuthorities auths (c :: cs) = AddAuthorities (addOneAuthority auths c) cs :=
        rfl
      rw [h2, h1]
      exact ih auths (fun c' hc' => h c' (List.mem_cons_of_mem c hc'))

/-- Claim C10: `AddAuthorities` is duplicate-free and idempotent — adding a
certificate whose raw subject, subject key id and public-key algorithm all
equal those of an already-registered authority leaves the authority list
unchanged, and adding the same certificates twice equals adding them
once. -/
theorem addAuthorities_duplicate_free_idempotent :
    (∀ (auths : List SecureBootAuthorityIdentity) (c : Certificate),
       (∃ a ∈ auths, authorityMatchesCert a c = true) → AddAuthorities auths [c] = auths) ∧
    (∀ (auths : List SecureBootAuthorityIdentity) (certs : List Certificate),
       AddAuthorities (AddAuthorities auths certs) certs = AddAuthorities auths certs) := by
  constructor
  · intro auths c h
    have : AddAuthorities auths [c] = addOneAuthority auths c := rfl
    rw [this, addOneAuthority_matched h]
  · intro auths certs
    exact AddAuthorities_of_covered certs (AddAuthorities auths certs)
      (fun c hc => AddAuthorities_covers certs auths c hc)

theorem addAuthorities_duplicate_free_idempotent_witness :
    AddAuthorities [⟨[1], [2], 3⟩] [⟨[1], [2], 3⟩] = [⟨[1], [2], 3⟩] :=
  addAuthorities_duplicate_free_idempotent.1 [⟨[1], [2], 3⟩] ⟨[1], [2], 3⟩
    ⟨⟨[1], [2], 3⟩, List.mem_singleton.mpr rfl, by decide⟩

end Secboot
